import Mathlib

/-
  Verification of the palette-generator core (src/src/App.jsx).

  The JavaScript source is shallowly embedded: JS numbers that are only ever
  integer-valued are `Int`/`Nat`; other JS numbers are `ℚ` (every JS float is a
  rational, and none of the verified claims depend on rounding of binary
  floating point); JS strings are `List Char`; a possibly-`NaN` channel value
  (as produced by `parseInt`) is `Option Int`, `none` standing for `NaN`;
  `undefined` array reads are `Option.none`.
-/

set_option maxRecDepth 4000

namespace PaletteGen

/-- JS truncation toward zero, `Math.trunc` / the `q` in the JS `%` operator. -/
def jsTrunc (q : ℚ) : Int := if 0 ≤ q then ⌊q⌋ else ⌈q⌉

/-- The JS remainder operator `a % b` on numbers: `a - b * trunc (a / b)`. -/
def jsMod (a b : ℚ) : ℚ := a - b * (jsTrunc (a / b) : ℚ)

/-- `Math.round`: round half toward positive infinity, i.e. `⌊q + 1/2⌋`. -/
def jsRound (q : ℚ) : Int := ⌊q + 1/2⌋

/-- App.jsx line 4: `const clamp = (v, min=0, max=1) => Math.min(max, Math.max(min, v));` -/
def clamp (v mn mx : ℚ) : ℚ := min mx (max mn v)

/-- App.jsx line 9: the hue normalization `h = (h % 360 + 360) % 360;`. -/
def hueNormQ (h0 : ℚ) : ℚ := jsMod (jsMod h0 360 + 360) 360

/-- App.jsx lines 10-20, the body of `hslToRgb` after the hue has been
normalized: chroma `c`, intermediate `x`, offset `m`, the six 60°-wide hue
sectors, and the final rounding of each channel. -/
def hslToRgbCore (h s l : ℚ) : Int × Int × Int :=
  let c := (1 - |2 * l - 1|) * s
  let x := c * (1 - |jsMod (h / 60) 2 - 1|)
  let m := l - c / 2
  let rgb : ℚ × ℚ × ℚ :=
    if h < 60 then (c, x, 0)
    else if h < 120 then (x, c, 0)
    else if h < 180 then (0, c, x)
    else if h < 240 then (0, x, c)
    else if h < 300 then (x, 0, c)
    else (c, 0, x)
  (jsRound ((rgb.1 + m) * 255), jsRound ((rgb.2.1 + m) * 255), jsRound ((rgb.2.2 + m) * 255))

/-- App.jsx lines 7-21: `function hslToRgb(h, s, l)`. -/
def hslToRgb (h0 s l : ℚ) : Int × Int × Int :=
  hslToRgbCore (hueNormQ h0) s l

/-- App.jsx line 5: `padStart(2, "0")` on a digit string. -/
def padStart2 (l : List Char) : List Char :=
  if l.length < 2 then List.replicate (2 - l.length) '0' ++ l else l

/-- App.jsx line 5: `const pad = (n) => n.toString(16).padStart(2, "0");`.
`none` is `NaN`; `NaN.toString(16)` is the three-character string `"NaN"`,
and negative numbers render with a leading minus sign. -/
def pad (n : Option Int) : List Char :=
  match n with
  | none => ['N', 'a', 'N']
  | some v =>
      padStart2 (if v < 0 then '-' :: Nat.toDigits 16 v.natAbs else Nat.toDigits 16 v.toNat)

/-- App.jsx line 23: ``function rgbToHex([r,g,b]) { return `#${pad(r)}${pad(g)}${pad(b)}`; }``.
The JS function destructures an array of exactly three channels; we take the
three channels as arguments. -/
def rgbToHex (r g b : Option Int) : List Char :=
  '#' :: (pad r ++ pad g ++ pad b)

/-- Characters not matched by `.` in a JS regular expression (line terminators). -/
def isLineTerm (c : Char) : Bool :=
  c = '\n' ∨ c = '\r' ∨ c = Char.ofNat 0x2028 ∨ c = Char.ofNat 0x2029

/-- `String.prototype.replace('#','')`: removes the first occurrence of `#`. -/
def replaceFirstHash : List Char → List Char
  | [] => []
  | c :: rest => if c = '#' then rest else c :: replaceFirstHash rest

/-- `match(/.{1,2}/g)`: greedily take non-overlapping groups of up to two
characters, skipping line terminators (which `.` does not match). -/
def chunk2 : List Char → List (List Char)
  | [] => []
  | [c] => if isLineTerm c then [] else [[c]]
  | c :: c2 :: rest2 =>
      if isLineTerm c then chunk2 (c2 :: rest2)
      else if isLineTerm c2 then [c] :: chunk2 rest2
      else [c, c2] :: chunk2 rest2

/-- The base-16 digit table of JS `parseInt`: `'0'..'9'` are 0-9, `'a'..'f'`
and `'A'..'F'` are 10-15, everything else is not a digit. -/
def hexDigitVal (c : Char) : Option Nat :=
  if '0' ≤ c ∧ c ≤ '9' then some (c.toNat - 48)
  else if 'a' ≤ c ∧ c ≤ 'f' then some (c.toNat - 87)
  else if 'A' ≤ c ∧ c ≤ 'F' then some (c.toNat - 55)
  else none

/-- Accumulate the longest prefix of base-16 digits. -/
def parseHexAcc : List Char → Nat → Nat
  | [], acc => acc
  | c :: rest, acc =>
      match hexDigitVal c with
      | none => acc
      | some v => parseHexAcc rest (16 * acc + v)

/-- `parseInt` digit scan: `NaN` (`none`) if the first character is not a
base-16 digit, otherwise the value of the longest digit prefix. -/
def parseHexDigits : List Char → Option Nat
  | [] => none
  | c :: rest =>
      match hexDigitVal c with
      | none => none
      | some v => some (parseHexAcc rest v)

/-- `parseInt(_, 16)` also accepts an optional `0x` / `0X` prefix. -/
def stripHexMark : List Char → List Char
  | '0' :: 'x' :: rest => rest
  | '0' :: 'X' :: rest => rest
  | l => l

/-- JS whitespace skipped by `parseInt` (the characters relevant here). -/
def isJsSpace (c : Char) : Bool :=
  c = ' ' ∨ c = '\t' ∨ c = '\n' ∨ c = '\r'

/-- `parseInt(x, 16)`: skip leading whitespace, read an optional sign and an
optional `0x` marker, then parse the longest base-16 digit prefix; `none` is
`NaN`. -/
def parseIntHex (l : List Char) : Option Int :=
  match l.dropWhile isJsSpace with
  | '-' :: rest => (parseHexDigits (stripHexMark rest)).map (fun n => -(n : Int))
  | '+' :: rest => (parseHexDigits (stripHexMark rest)).map (fun n => (n : Int))
  | rest => (parseHexDigits (stripHexMark rest)).map (fun n => (n : Int))

/-- App.jsx lines 24-28: `function hexToRgb(hex)`. Strips the first `#`,
splits into groups of up to two characters, and parses each group in base 16;
when the regex match returns `null` (no matchable character at all) the
function returns `[0,0,0]`. -/
def hexToRgb (hex : List Char) : List (Option Int) :=
  match chunk2 (replaceFirstHash hex) with
  | [] => [some 0, some 0, some 0]
  | cs => cs.map parseIntHex

/-- The composition `rgbToHex(hexToRgb(x))`: `rgbToHex` destructures an array
`[r,g,b]`; `none` models the TypeError raised when fewer than three channels
are present (never hit for a well-formed hex string). -/
def roundTrip (x : List Char) : Option (List Char) :=
  match hexToRgb x with
  | [r, g, b] => some (rgbToHex r g b)
  | _ => none

/-- JS `Array.prototype.map((c, i) => ...)` with the running index. -/
def mapIdxFrom {α β : Type} (f : Nat → α → β) : Nat → List α → List β
  | _, [] => []
  | n, c :: rest => f n c :: mapIdxFrom f (n + 1) rest

/-- JS `.map` with element and index arguments. -/
def jsMapIdx {α β : Type} (f : Nat → α → β) (l : List α) : List β :=
  mapIdxFrom f 0 l

/-- JS array indexing `p[i]` with a (possibly negative) integer index:
`undefined` (`none`) when out of range. -/
def jsIndex {α : Type} (p : List α) (i : Int) : Option α :=
  if i < 0 then none else p.get? i.toNat

/-- App.jsx line 66, the non-monochrome lightness ladder before clamping:
`[l-0.15, l-0.05, l, l+0.08, l+0.16]`. -/
def lightnessLadder (l : ℚ) : List ℚ :=
  [l - 0.15, l - 0.05, l, l + 0.08, l + 0.16]

/-- App.jsx lines 48-63, the `hues` array of `generatePalette`, by scheme.
The random source is a stream `g : Nat → ℚ` of the successive `Math.random()`
results; draws 0 and 1 are consumed by the saturation/lightness draws, so the
`random` scheme consumes draws 2 through 6. -/
def paletteHues (g : Nat → ℚ) (baseHue : Int) (scheme : String) : List Int :=
  match scheme with
  | "complementary" =>
      [baseHue, (baseHue + 180).tmod 360, (baseHue + 30).tmod 360,
       (baseHue + 210).tmod 360, (baseHue + 350).tmod 360]
  | "triadic" =>
      [baseHue, (baseHue + 120).tmod 360, (baseHue + 240).tmod 360,
       (baseHue + 60).tmod 360, (baseHue + 300).tmod 360]
  | "analogous" =>
      [baseHue - 30, baseHue - 10, baseHue, baseHue + 10, baseHue + 30].map
        (fun h => (h.tmod 360 + 360).tmod 360)
  | "monochrome" => [baseHue, baseHue, baseHue, baseHue, baseHue]
  | _ => [⌊g 2 * 360⌋, ⌊g 3 * 360⌋, ⌊g 4 * 360⌋, ⌊g 5 * 360⌋, ⌊g 6 * 360⌋]

/-- App.jsx lines 69-72, the body of the per-slot map:
`const rgb = hslToRgb(h, s, l); return rgbToHex(rgb);`. -/
def hexOfHsl (h s l : ℚ) : List Char :=
  let rgb := hslToRgb h s l
  rgbToHex (some rgb.1) (some rgb.2.1) (some rgb.2.2)

/-- App.jsx lines 44-73: `generatePalette({ baseHue, scheme })`.
`g` is the stream of `Math.random()` draws: draw 0 feeds the saturation
`s = 0.5 + Math.random()*0.4`, draw 1 the lightness
`l = 0.45 + Math.random()*0.2`. The final `hues.map((h, i) => ...)` reads
`ss[i]` and `ls[i]`; both arrays always have the same length 5 as `hues`, so
the lookup never misses and the `getD` default is never used. -/
def generatePalette (g : Nat → ℚ) (baseHue : Int) (scheme : String) : List (List Char) :=
  let s : ℚ := 0.5 + g 0 * 0.4
  let l : ℚ := 0.45 + g 1 * 0.2
  let hues := paletteHues g baseHue scheme
  let ls := if scheme = "monochrome" then [(0.25 : ℚ), 0.4, 0.55, 0.7, 0.85]
            else (lightnessLadder l).map (fun x => clamp x 0.15 0.9)
  let ss := if scheme = "monochrome" then [(0.15 : ℚ), 0.3, 0.45, 0.6, 0.75]
            else List.replicate 5 s
  jsMapIdx (fun i (h : Int) =>
    hexOfHsl (h : ℚ) (clamp ((ss.get? i).getD 0) 0 1) (clamp ((ls.get? i).getD 0) 0 1)) hues

/-- App.jsx lines 110-114: the `regenerate` callback.
`const base = Math.floor(baseHue); const fresh = generatePalette({baseHue: base, scheme});
setPalette(p => p.map((c,i) => locks[i] ? c : fresh[i]));`
`locks[i]` out of range is `undefined`, which is falsy; `fresh[i]` out of
range is `undefined` (`none`). -/
def regenerate (g : Nat → ℚ) (baseHue : ℚ) (scheme : String)
    (p : List (List Char)) (locks : List Bool) : List (Option (List Char)) :=
  let base : Int := ⌊baseHue⌋
  let fresh := generatePalette g base scheme
  jsMapIdx (fun i c => if (locks.get? i).getD false then some c else fresh.get? i) p

/-- App.jsx lines 141-143: `updateColor(i, hex)` replaces slot `i` only:
`setPalette(p => p.map((c,idx) => idx===i ? hex : c));`. -/
def updateColor (p : List (List Char)) (i : Nat) (x : List Char) : List (List Char) :=
  jsMapIdx (fun idx c => if idx = i then x else c) p

/-- App.jsx line 136: `const fg = palette[fgIndex-1] ?? palette[0];`. -/
def fgColor (p : List (List Char)) (fgIndex : Int) : Option (List Char) :=
  (jsIndex p (fgIndex - 1)).orElse (fun _ => jsIndex p 0)

/-- App.jsx line 137: `const bg = palette[bgIndex-1] ?? palette[palette.length-1];`. -/
def bgColor (p : List (List Char)) (bgIndex : Int) : Option (List Char) :=
  (jsIndex p (bgIndex - 1)).orElse (fun _ => jsIndex p ((p.length : Int) - 1))

/-- App.jsx line 139: the WCAG tag of a contrast ratio:
`contrast >= 7 ? 'AAA' : contrast >= 4.5 ? 'AA' : contrast >= 3 ? 'AA Large' : 'Fail'`. -/
def wcag (r : ℚ) : String :=
  if r ≥ 7 then "AAA"
  else if r ≥ 4.5 then "AA"
  else if r ≥ 3 then "AA Large"
  else "Fail"

/-! ### Basic lemmas about the indexed map -/

theorem mapIdxFrom_length {α β : Type} (f : Nat → α → β) (n : Nat) (l : List α) :
    (mapIdxFrom f n l).length = l.length := by
  induction l generalizing n with
  | nil => simp [mapIdxFrom]
  | cons c rest ih => simp [mapIdxFrom, ih]

theorem mapIdxFrom_get? {α β : Type} (f : Nat → α → β) (n j : Nat) (l : List α) :
    (mapIdxFrom f n l).get? j = (l.get? j).map (f (n + j)) := by
  induction l generalizing n j with
  | nil => simp [mapIdxFrom]
  | cons c rest ih =>
      rw [show mapIdxFrom f n (c :: rest) = f n c :: mapIdxFrom f (n + 1) rest from rfl]
      cases j with
      | zero => simp
      | succ j =>
          simp only [List.get?]
          rw [ih (n + 1) j, show n + 1 + j = n + (j + 1) from by omega]

theorem jsMapIdx_length {α β : Type} (f : Nat → α → β) (l : List α) :
    (jsMapIdx f l).length = l.length :=
  mapIdxFrom_length f 0 l

theorem jsMapIdx_get? {α β : Type} (f : Nat → α → β) (j : Nat) (l : List α) :
    (jsMapIdx f l).get? j = (l.get? j).map (f j) := by
  simpa using mapIdxFrom_get? f 0 j l

/-! ### C9: updateColor is a frame-preserving single-slot update -/

/-- Claim C9: for every palette `P`, slot index `i`, and string `x`, the
`updateColor` operation produces a palette of the same length as `P` whose
slot `i` equals `x` and whose every slot other than `i` is unchanged. -/
theorem updateColor_spec (p : List (List Char)) (i : Nat) (x : List Char) :
    (updateColor p i x).length = p.length
    ∧ (i < p.length → (updateColor p i x).get? i = some x)
    ∧ (∀ j, j ≠ i → (updateColor p i x).get? j = p.get? j) := by
  refine ⟨jsMapIdx_length _ p, ?_, ?_⟩
  · intro hi
    rw [updateColor, jsMapIdx_get?]
    cases hc : p.get? i with
    | none => exact absurd (List.get?_eq_none.mp hc) (by omega)
    | some c => simp
  · intro j hj
    rw [updateColor, jsMapIdx_get?]
    cases hc : p.get? j <;> simp [hj]

/-- Witness for C9 at a concrete palette, slot 1, new string `"#z"`. -/
theorem updateColor_spec_witness :
    (1 ≠ 0 ∧ (1 : Nat) < ([['#', 'a'], ['#', 'b'], ['#', 'c']] : List (List Char)).length)
    ∧ (updateColor [['#', 'a'], ['#', 'b'], ['#', 'c']] 1 ['#', 'z']).get? 1 = some ['#', 'z']
    ∧ (updateColor [['#', 'a'], ['#', 'b'], ['#', 'c']] 1 ['#', 'z']).get? 0 =
        ([['#', 'a'], ['#', 'b'], ['#', 'c']] : List (List Char)).get? 0 :=
  ⟨⟨by decide, by decide⟩,
   (updateColor_spec [['#', 'a'], ['#', 'b'], ['#', 'c']] 1 ['#', 'z']).2.1 (by decide),
   (updateColor_spec [['#', 'a'], ['#', 'b'], ['#', 'c']] 1 ['#', 'z']).2.2 0 (by decide)⟩

/-! ### Length of a generated palette -/

theorem paletteHues_length (g : Nat → ℚ) (b : Int) (scheme : String) :
    (paletteHues g b scheme).length = 5 := by
  unfold paletteHues
  split <;> simp

theorem generatePalette_length (g : Nat → ℚ) (b : Int) (scheme : String) :
    (generatePalette g b scheme).length = 5 := by
  simp only [generatePalette]
  rw [jsMapIdx_length, paletteHues_length]

/-! ### C1: regeneration preserves locked slots and installs fresh ones -/

/-- Claim C1: for every palette `P` of 5 hex strings and lock mask `M` of 5
booleans, `regenerate` produces `P'` with `P'[i] = P[i]` on every locked slot
and `P'[i] = F[i]` (the corresponding slot of the freshly generated palette
`F = generatePalette(floor(baseHue), scheme)`) on every unlocked slot. -/
theorem regenerate_spec (g : Nat → ℚ) (bh : ℚ) (scheme : String)
    (p : List (List Char)) (locks : List Bool)
    (hp : p.length = 5) (hl : locks.length = 5) :
    (regenerate g bh scheme p locks).length = 5
    ∧ ∀ i c, p.get? i = some c →
        ((locks.get? i = some true →
            (regenerate g bh scheme p locks).get? i = some (some c))
         ∧ (locks.get? i = some false →
            (regenerate g bh scheme p locks).get? i =
              some ((generatePalette g ⌊bh⌋ scheme).get? i)
            ∧ ((generatePalette g ⌊bh⌋ scheme).get? i).isSome = true)) := by
  constructor
  · simp only [regenerate]
    rw [jsMapIdx_length, hp]
  · intro i c hc
    have hi : i < p.length := by
      rcases Nat.lt_or_ge i p.length with h | h
      · exact h
      · rw [List.get?_eq_none.mpr h] at hc; cases hc
    constructor
    · intro hlock
      simp only [regenerate]
      rw [jsMapIdx_get?, hc, Option.map_some', hlock]
      simp [Option.getD]
    · intro hlock
      have hfresh : i < (generatePalette g ⌊bh⌋ scheme).length := by
        rw [generatePalette_length]; omega
      refine ⟨?_, ?_⟩
      · simp only [regenerate]
        rw [jsMapIdx_get?, hc, Option.map_some', hlock]
        simp [Option.getD]
      · rw [List.get?_eq_get hfresh]
        rfl

/-- Witness for C1: a concrete 5-slot palette with slots 0 and 2 locked,
regenerated with the zero random stream, base hue 120 and the monochrome
scheme; slot 0 is preserved, slot 1 receives the fresh color. -/
theorem regenerate_spec_witness :
    ([['a'], ['b'], ['c'], ['d'], ['e']] : List (List Char)).length = 5
    ∧ ([true, false, true, false, false] : List Bool).length = 5
    ∧ ([['a'], ['b'], ['c'], ['d'], ['e']] : List (List Char)).get? 0 = some ['a']
    ∧ ([true, false, true, false, false] : List Bool).get? 0 = some true
    ∧ (regenerate (fun _ => 0) 120 "monochrome"
        [['a'], ['b'], ['c'], ['d'], ['e']] [true, false, true, false, false]).get? 0 =
        some (some ['a'])
    ∧ ((regenerate (fun _ => 0) 120 "monochrome"
        [['a'], ['b'], ['c'], ['d'], ['e']] [true, false, true, false, false]).get? 1 =
        some ((generatePalette (fun _ => 0) ⌊(120 : ℚ)⌋ "monochrome").get? 1)
       ∧ ((generatePalette (fun _ => 0) ⌊(120 : ℚ)⌋ "monochrome").get? 1).isSome = true) :=
  ⟨by decide, by decide, by decide, by decide,
   ((regenerate_spec (fun _ => 0) 120 "monochrome"
      [['a'], ['b'], ['c'], ['d'], ['e']] [true, false, true, false, false]
      (by decide) (by decide)).2 0 ['a'] (by decide)).1 (by decide),
   ((regenerate_spec (fun _ => 0) 120 "monochrome"
      [['a'], ['b'], ['c'], ['d'], ['e']] [true, false, true, false, false]
      (by decide) (by decide)).2 1 ['b'] (by decide)).2 (by decide)⟩

/-! ### C5: contrast selection indices fail soft -/

/-- Claim C5: for a palette of length 5 and any 1-based index pair, the
contrast selection never yields `undefined`: an in-range index selects the
corresponding slot, an out-of-range foreground index falls back to the first
color and an out-of-range background index falls back to the last color. -/
theorem contrastSelection_spec (p : List (List Char)) (i : Int) (hp : p.length = 5) :
    ((1 ≤ i ∧ i ≤ 5) →
        fgColor p i = p.get? (i - 1).toNat ∧ bgColor p i = p.get? (i - 1).toNat)
    ∧ (¬(1 ≤ i ∧ i ≤ 5) → fgColor p i = p.get? 0 ∧ bgColor p i = p.get? 4)
    ∧ (fgColor p i).isSome = true ∧ (bgColor p i).isSome = true := by
  have hsome : ∀ j : Nat, j < 5 → ∃ v, p.get? j = some v := by
    intro j hj
    exact ⟨p.get ⟨j, by omega⟩, List.get?_eq_get (by omega)⟩
  have hin : (1 ≤ i ∧ i ≤ 5) →
      fgColor p i = p.get? (i - 1).toNat ∧ bgColor p i = p.get? (i - 1).toNat := by
    rintro ⟨h1, h5⟩
    obtain ⟨v, hv⟩ := hsome (i - 1).toNat (by omega)
    have hidx : jsIndex p (i - 1) = some v := by
      rw [jsIndex, if_neg (by omega), hv]
    constructor
    · rw [fgColor, hidx, hv]; rfl
    · rw [bgColor, hidx, hv]; rfl
  have hout : ¬(1 ≤ i ∧ i ≤ 5) → fgColor p i = p.get? 0 ∧ bgColor p i = p.get? 4 := by
    intro h
    have hmiss : jsIndex p (i - 1) = none := by
      rw [jsIndex]
      split
      · rfl
      · rename_i hpos
        rw [List.get?_eq_none.mpr (by omega)]
    constructor
    · rw [fgColor, hmiss]; rfl
    · rw [bgColor, hmiss]
      have : jsIndex p ((p.length : Int) - 1) = p.get? 4 := by
        rw [jsIndex, if_neg (by omega), hp]
        rfl
      simpa [Option.orElse] using this
  refine ⟨hin, hout, ?_, ?_⟩
  · by_cases h : 1 ≤ i ∧ i ≤ 5
    · obtain ⟨hfg, _⟩ := hin h
      obtain ⟨v, hv⟩ := hsome (i - 1).toNat (by omega)
      rw [hfg, hv]; rfl
    · obtain ⟨hfg, _⟩ := hout h
      obtain ⟨v, hv⟩ := hsome 0 (by omega)
      rw [hfg, hv]; rfl
  · by_cases h : 1 ≤ i ∧ i ≤ 5
    · obtain ⟨_, hbg⟩ := hin h
      obtain ⟨v, hv⟩ := hsome (i - 1).toNat (by omega)
      rw [hbg, hv]; rfl
    · obtain ⟨_, hbg⟩ := hout h
      obtain ⟨v, hv⟩ := hsome 4 (by omega)
      rw [hbg, hv]; rfl

/-- Witness for C5 at a concrete palette and the out-of-range index 9. -/
theorem contrastSelection_spec_witness :
    ([[ 'a'], ['b'], ['c'], ['d'], ['e']] : List (List Char)).length = 5
    ∧ ¬((1 : Int) ≤ 9 ∧ (9 : Int) ≤ 5)
    ∧ fgColor [['a'], ['b'], ['c'], ['d'], ['e']] 9 =
        ([['a'], ['b'], ['c'], ['d'], ['e']] : List (List Char)).get? 0
    ∧ bgColor [['a'], ['b'], ['c'], ['d'], ['e']] 9 =
        ([['a'], ['b'], ['c'], ['d'], ['e']] : List (List Char)).get? 4 :=
  ⟨by decide, by decide,
   ((contrastSelection_spec [['a'], ['b'], ['c'], ['d'], ['e']] 9 (by decide)).2.1
      (by decide)).1,
   ((contrastSelection_spec [['a'], ['b'], ['c'], ['d'], ['e']] 9 (by decide)).2.1
      (by decide)).2⟩

/-! ### C4: WCAG classification thresholds -/

/-- Claim C4: the WCAG classification uses non-overlapping thresholds
evaluated high to low — `r ≥ 7` gives `"AAA"`, else `r ≥ 4.5` gives `"AA"`,
else `r ≥ 3` gives `"AA Large"`, else `"Fail"`; in particular `wcag 7 = "AAA"`,
`wcag 4.5 = "AA"`, `wcag 3 = "AA Large"`, and `wcag 2.9 = "Fail"`. -/
theorem wcag_spec :
    (∀ r : ℚ, (wcag r = "AAA" ↔ 7 ≤ r)
      ∧ (wcag r = "AA" ↔ 4.5 ≤ r ∧ r < 7)
      ∧ (wcag r = "AA Large" ↔ 3 ≤ r ∧ r < 4.5)
      ∧ (wcag r = "Fail" ↔ r < 3))
    ∧ wcag 7 = "AAA" ∧ wcag 4.5 = "AA" ∧ wcag 3 = "AA Large" ∧ wcag 2.9 = "Fail" := by
  constructor
  · intro r
    unfold wcag
    split_ifs with h1 h2 h3 <;>
      refine ⟨⟨fun hx => ?_, fun hx => ?_⟩, ⟨fun hx => ?_, fun hx => ?_⟩,
              ⟨fun hx => ?_, fun hx => ?_⟩, ⟨fun hx => ?_, fun hx => ?_⟩⟩ <;>
      first
        | rfl
        | linarith
        | (exact absurd hx (by decide))
        | (exact absurd hx.1 (by linarith))
        | (exact absurd hx.2 (by linarith))
        | (refine ⟨by linarith, by linarith⟩)
  · refine ⟨?_, ?_, ?_, ?_⟩ <;> (unfold wcag; norm_num)

/-! ### Modular-arithmetic helpers for the hue claims -/

theorem tmod_emod360 (a : Int) : (a.tmod 360).emod 360 = a.emod 360 := by
  show (a.tmod 360) % 360 = a % 360
  rw [Int.emod_eq_emod_iff_emod_sub_eq_zero, Int.tmod_def]
  have h : a - 360 * a.tdiv 360 - a = -(360 * a.tdiv 360) := by ring
  rw [h]
  exact Int.emod_eq_zero_of_dvd ⟨-(a.tdiv 360), by ring⟩

/-! ### C6: the complementary hue sequence -/

/-- Claim C6: for every integer base hue `h`, the complementary scheme
produces, in slot order, the hue sequence `[h, h+180, h+30, h+210, h+350]`
reduced mod 360 (hues are angles wrapped modulo 360, which is exactly the
normalization `hslToRgb` applies before using a hue); in particular base hue
120 yields exactly `[120, 300, 150, 330, 110]`, independent of the random
saturation/lightness draws (the hue list never reads the random stream). -/
theorem paletteHues_complementary (g gg : Nat → ℚ) (h : Int) :
    paletteHues g h "complementary" = paletteHues gg h "complementary"
    ∧ (paletteHues g h "complementary").map (fun a => a.emod 360) =
        [h, h + 180, h + 30, h + 210, h + 350].map (fun a => a.emod 360)
    ∧ paletteHues g 120 "complementary" = [120, 300, 150, 330, 110] := by
  refine ⟨rfl, ?_, rfl⟩
  show [h.emod 360, ((h + 180).tmod 360).emod 360, ((h + 30).tmod 360).emod 360,
        ((h + 210).tmod 360).emod 360, ((h + 350).tmod 360).emod 360] = _
  rw [tmod_emod360, tmod_emod360, tmod_emod360, tmod_emod360]
  rfl

/-! ### C7: the monochrome scheme ignores the random draws -/

/-- Claim C7: for every base hue, the monochrome scheme produces 5 colors
that all share the base hue and use, in slot order, the fixed lightness
ladder `[0.25, 0.40, 0.55, 0.70, 0.85]` and the fixed saturation ladder
`[0.15, 0.30, 0.45, 0.60, 0.75]`; the right-hand side does not mention the
random stream `g`, so the result has no dependence on the random draws. -/
theorem generatePalette_monochrome (g : Nat → ℚ) (h : Int) :
    generatePalette g h "monochrome" =
      [hexOfHsl (h : ℚ) 0.15 0.25, hexOfHsl (h : ℚ) 0.3 0.4, hexOfHsl (h : ℚ) 0.45 0.55,
       hexOfHsl (h : ℚ) 0.6 0.7, hexOfHsl (h : ℚ) 0.75 0.85] := by
  have hh : paletteHues g h "monochrome" = [h, h, h, h, h] := rfl
  simp only [generatePalette, hh, jsMapIdx, mapIdxFrom]
  norm_num [List.get?, clamp, min_def, max_def]

/-! ### C10: the non-monochrome lightness ladder never needs its clamp -/

theorem clamp_eq_self (x lo hi : ℚ) (h1 : lo ≤ x) (h2 : x ≤ hi) : clamp x lo hi = x := by
  rw [clamp, max_eq_right h1, min_eq_right h2]

/-- Claim C10: for every saturation `s ∈ [0.5, 0.9)` and lightness
`l ∈ [0.45, 0.65)` (the ranges of the random draws), all five ladder values
`l-0.15, l-0.05, l, l+0.08, l+0.16` already lie inside `[0.15, 0.9]`, so the
clamp to that interval is the identity, and every ladder lightness lies in
`[0.30, 0.81)`. -/
theorem lightnessLadder_spec (s l : ℚ)
    (hs0 : 0.5 ≤ s) (hs1 : s < 0.9) (hl0 : 0.45 ≤ l) (hl1 : l < 0.65) :
    (lightnessLadder l).map (fun x => clamp x 0.15 0.9) = lightnessLadder l
    ∧ ∀ x ∈ lightnessLadder l, 0.15 ≤ x ∧ x ≤ 0.9 ∧ 0.3 ≤ x ∧ x < 0.81 := by
  constructor
  · simp only [lightnessLadder, List.map]
    rw [clamp_eq_self _ _ _ (by linarith) (by linarith),
        clamp_eq_self _ _ _ (by linarith) (by linarith),
        clamp_eq_self _ _ _ (by linarith) (by linarith),
        clamp_eq_self _ _ _ (by linarith) (by linarith),
        clamp_eq_self _ _ _ (by linarith) (by linarith)]
  · intro x hx
    simp only [lightnessLadder, List.mem_cons, List.not_mem_nil, or_false] at hx
    rcases hx with h | h | h | h | h <;> subst h <;>
      refine ⟨by linarith, by linarith, by linarith, by linarith⟩

/-- Witness for C10 at `s = 0.7`, `l = 0.5`, ladder element `x = l = 0.5`. -/
theorem lightnessLadder_spec_witness :
    ((0.5 : ℚ) ≤ 0.7 ∧ (0.7 : ℚ) < 0.9 ∧ (0.45 : ℚ) ≤ 0.5 ∧ (0.5 : ℚ) < 0.65)
    ∧ (lightnessLadder 0.5).map (fun x => clamp x 0.15 0.9) = lightnessLadder 0.5
    ∧ ((0.5 : ℚ) ∈ lightnessLadder 0.5
       ∧ ((0.15 : ℚ) ≤ 0.5 ∧ (0.5 : ℚ) ≤ 0.9 ∧ (0.3 : ℚ) ≤ 0.5 ∧ (0.5 : ℚ) < 0.81)) :=
  ⟨⟨by norm_num, by norm_num, by norm_num, by norm_num⟩,
   (lightnessLadder_spec 0.7 0.5 (by norm_num) (by norm_num) (by norm_num) (by norm_num)).1,
   by norm_num [lightnessLadder],
   (lightnessLadder_spec 0.7 0.5 (by norm_num) (by norm_num) (by norm_num) (by norm_num)).2
     0.5 (by norm_num [lightnessLadder])⟩

/-! ### C8: hslToRgb channels need no explicit clamp -/
theorem jsMod_nonneg_lt (a b : ℚ) (ha : 0 ≤ a) (hb : 0 < b) :
    0 ≤ jsMod a b ∧ jsMod a b < b := by
  have hq : (0 : ℚ) ≤ a / b := div_nonneg ha hb.le
  rw [jsMod, jsTrunc, if_pos hq]
  have h3 : b * (a / b) = a := by field_simp
  constructor
  · have h1 : ((⌊a / b⌋ : Int) : ℚ) ≤ a / b := Int.floor_le _
    nlinarith
  · have h1 : a / b < (⌊a / b⌋ : Int) + 1 := Int.lt_floor_add_one _
    nlinarith

theorem jsMod_neg_bounds (a b : ℚ) (ha : a < 0) (hb : 0 < b) :
    -b < jsMod a b ∧ jsMod a b ≤ 0 := by
  have hq : ¬ (0 : ℚ) ≤ a / b := by
    rw [not_le]
    exact div_neg_of_neg_of_pos ha hb
  rw [jsMod, jsTrunc, if_neg hq]
  have h3 : b * (a / b) = a := by field_simp
  constructor
  · have h1 : ((⌈a / b⌉ : Int) : ℚ) < a / b + 1 := Int.ceil_lt_add_one _
    nlinarith
  · have h1 : a / b ≤ ((⌈a / b⌉ : Int) : ℚ) := Int.le_ceil _
    nlinarith

theorem hueNormQ_bounds (h0 : ℚ) : 0 ≤ hueNormQ h0 ∧ hueNormQ h0 < 360 := by
  rw [hueNormQ]
  have hb : (0 : ℚ) < 360 := by norm_num
  have hstep : 0 ≤ jsMod h0 360 + 360 := by
    rcases le_or_lt 0 h0 with hc | hc
    · have := (jsMod_nonneg_lt h0 360 hc hb).1
      linarith
    · have := (jsMod_neg_bounds h0 360 hc hb).1
      linarith
  exact jsMod_nonneg_lt _ 360 hstep hb

theorem jsRound_unit (q : ℚ) (h0 : 0 ≤ q) (h1 : q ≤ 1) :
    0 ≤ jsRound (q * 255) ∧ jsRound (q * 255) ≤ 255 := by
  rw [jsRound]
  constructor
  · apply Int.le_floor.mpr
    push_cast
    linarith
  · have h2 : ⌊q * 255 + 1 / 2⌋ < 256 := by
      apply Int.floor_lt.mpr
      push_cast
      linarith
    omega

theorem hslToRgbCore_bounds (h s l : ℚ) (hh0 : 0 ≤ h) (hh1 : h < 360)
    (hs0 : 0 ≤ s) (hs1 : s ≤ 1) (hl0 : 0 ≤ l) (hl1 : l ≤ 1) :
    (0 ≤ (hslToRgbCore h s l).1 ∧ (hslToRgbCore h s l).1 ≤ 255)
    ∧ (0 ≤ (hslToRgbCore h s l).2.1 ∧ (hslToRgbCore h s l).2.1 ≤ 255)
    ∧ (0 ≤ (hslToRgbCore h s l).2.2 ∧ (hslToRgbCore h s l).2.2 ≤ 255) := by
  have hA0 : |2 * l - 1| ≤ 1 := abs_le.mpr ⟨by linarith, by linarith⟩
  have hA1 : 2 * l - 1 ≤ |2 * l - 1| := le_abs_self _
  have hA2 : -(2 * l - 1) ≤ |2 * l - 1| := neg_le_abs _
  have hc0 : 0 ≤ (1 - |2 * l - 1|) * s := mul_nonneg (by linarith) hs0
  have hc2l : (1 - |2 * l - 1|) * s ≤ 2 * l := by nlinarith
  have hc2l2 : (1 - |2 * l - 1|) * s ≤ 2 - 2 * l := by nlinarith
  have hmod := jsMod_nonneg_lt (h / 60) 2 (by positivity) (by norm_num)
  have hB0 : 0 ≤ 1 - |jsMod (h / 60) 2 - 1| := by
    have : |jsMod (h / 60) 2 - 1| ≤ 1 := abs_le.mpr ⟨by linarith [hmod.1], by linarith [hmod.2]⟩
    linarith
  have hB1 : 1 - |jsMod (h / 60) 2 - 1| ≤ 1 := by
    have := abs_nonneg (jsMod (h / 60) 2 - 1)
    linarith
  have hx0 : 0 ≤ (1 - |2 * l - 1|) * s * (1 - |jsMod (h / 60) 2 - 1|) := mul_nonneg hc0 hB0
  have hxc : (1 - |2 * l - 1|) * s * (1 - |jsMod (h / 60) 2 - 1|) ≤ (1 - |2 * l - 1|) * s := by
    nlinarith
  simp only [hslToRgbCore]
  split_ifs <;>
    exact ⟨⟨(jsRound_unit _ (by linarith) (by linarith)).1,
            (jsRound_unit _ (by linarith) (by linarith)).2⟩,
           ⟨(jsRound_unit _ (by linarith) (by linarith)).1,
            (jsRound_unit _ (by linarith) (by linarith)).2⟩,
           ⟨(jsRound_unit _ (by linarith) (by linarith)).1,
            (jsRound_unit _ (by linarith) (by linarith)).2⟩⟩

/-- Claim C8: for every hue `h` and every saturation `s` and lightness `l`
in `[0,1]`, each channel computed by `hslToRgb` as `round((component+m)*255)`
already lies in `[0, 255]`, so no explicit clamping of the output channels
is needed. -/
theorem hslToRgb_channels (h s l : ℚ)
    (hs0 : 0 ≤ s) (hs1 : s ≤ 1) (hl0 : 0 ≤ l) (hl1 : l ≤ 1) :
    (0 ≤ (hslToRgb h s l).1 ∧ (hslToRgb h s l).1 ≤ 255)
    ∧ (0 ≤ (hslToRgb h s l).2.1 ∧ (hslToRgb h s l).2.1 ≤ 255)
    ∧ (0 ≤ (hslToRgb h s l).2.2 ∧ (hslToRgb h s l).2.2 ≤ 255) := by
  have hb := hueNormQ_bounds h
  simp only [hslToRgb]
  exact hslToRgbCore_bounds (hueNormQ h) s l hb.1 hb.2 hs0 hs1 hl0 hl1

/-- Witness for C8 at hue 200, saturation 1/2, lightness 1/2. -/
theorem hslToRgb_channels_witness :
    ((0 : ℚ) ≤ 1 / 2 ∧ (1 : ℚ) / 2 ≤ 1)
    ∧ (0 ≤ (hslToRgb 200 (1 / 2) (1 / 2)).1 ∧ (hslToRgb 200 (1 / 2) (1 / 2)).1 ≤ 255)
    ∧ (0 ≤ (hslToRgb 200 (1 / 2) (1 / 2)).2.1 ∧ (hslToRgb 200 (1 / 2) (1 / 2)).2.1 ≤ 255)
    ∧ (0 ≤ (hslToRgb 200 (1 / 2) (1 / 2)).2.2 ∧ (hslToRgb 200 (1 / 2) (1 / 2)).2.2 ≤ 255) :=
  ⟨⟨by norm_num, by norm_num⟩,
   hslToRgb_channels 200 (1 / 2) (1 / 2) (by norm_num) (by norm_num) (by norm_num) (by norm_num)⟩

/-! ### Hex-digit characters and parseInt on two-digit groups (toward C2/C3) -/
theorem hexDigitVal_facts (c : Char) (v : Nat) (h : hexDigitVal c = some v) :
    v < 16 ∧ Nat.digitChar v = Char.toLower c ∧ isJsSpace c = false
    ∧ c ≠ '-' ∧ c ≠ '+' ∧ c ≠ 'x' ∧ c ≠ 'X' ∧ isLineTerm c = false := by
  have hc : Char.ofNat c.toNat = c := Char.ofNat_toNat c
  unfold hexDigitVal at h
  split_ifs at h with h1 h2 h3 <;> injection h with hv
  · obtain ⟨ha, hb⟩ := h1
    rw [Char.le_def] at ha hb
    have ha2 : 48 ≤ c.toNat := ha
    have hb2 : c.toNat ≤ 57 := hb
    subst hv
    interval_cases hn : c.toNat <;> (rw [← hc]; decide)
  · obtain ⟨ha, hb⟩ := h2
    rw [Char.le_def] at ha hb
    have ha2 : 97 ≤ c.toNat := ha
    have hb2 : c.toNat ≤ 102 := hb
    subst hv
    interval_cases hn : c.toNat <;> (rw [← hc]; decide)
  · obtain ⟨ha, hb⟩ := h3
    rw [Char.le_def] at ha hb
    have ha2 : 65 ≤ c.toNat := ha
    have hb2 : c.toNat ≤ 70 := hb
    subst hv
    interval_cases hn : c.toNat <;> (rw [← hc]; decide)

theorem parseIntHex_pair (a b : Char) (va vb : Nat)
    (ha : hexDigitVal a = some va) (hb : hexDigitVal b = some vb) :
    parseIntHex [a, b] = some ((16 * va + vb : Nat) : Int) := by
  obtain ⟨hva16, _, hasp, hane, hape, _, _, _⟩ := hexDigitVal_facts a va ha
  obtain ⟨hvb16, _, hbsp, _, _, hbx, hbX, _⟩ := hexDigitVal_facts b vb hb
  have hdrop : [a, b].dropWhile isJsSpace = [a, b] := by
    simp [List.dropWhile, hasp]
  have hstrip : stripHexMark [a, b] = [a, b] := by
    unfold stripHexMark
    split
    · rename_i heq
      injection heq with h1 h2
      injection h2 with h2
      exact absurd h2 hbx
    · rename_i heq
      injection heq with h1 h2
      injection h2 with h2
      exact absurd h2 hbX
    · rfl
  rw [parseIntHex, hdrop]
  split
  · rename_i r heq
    injection heq with h1
    exact absurd h1 hane
  · rename_i r heq
    injection heq with h1
    exact absurd h1 hape
  · rw [hstrip]
    simp [parseHexDigits, parseHexAcc, ha, hb]

theorem pad_pair : ∀ va : Nat, va < 16 → ∀ vb : Nat, vb < 16 →
    pad (some ((16 * va + vb : Nat) : Int)) = [Nat.digitChar va, Nat.digitChar vb] := by
  decide

/-! ### C2: the hex round trip is lossless on valid hex strings -/

theorem chunk2_cons2 (a b : Char) (rest : List Char)
    (ha : isLineTerm a = false) (hb : isLineTerm b = false) :
    chunk2 (a :: b :: rest) = [a, b] :: chunk2 rest := by
  rw [chunk2]
  simp [ha, hb]

/-- Claim C2: for every valid hex string (a leading `#` followed by six
hexadecimal digits), `rgbToHex(hexToRgb(x))` equals `x` after case
normalization (lowercasing): the hex-to-RGB-to-hex round trip is lossless. -/
theorem roundTrip_valid (d1 d2 d3 d4 d5 d6 : Char) (v1 v2 v3 v4 v5 v6 : Nat)
    (h1 : hexDigitVal d1 = some v1) (h2 : hexDigitVal d2 = some v2)
    (h3 : hexDigitVal d3 = some v3) (h4 : hexDigitVal d4 = some v4)
    (h5 : hexDigitVal d5 = some v5) (h6 : hexDigitVal d6 = some v6) :
    roundTrip ['#', d1, d2, d3, d4, d5, d6] =
      some (['#', d1, d2, d3, d4, d5, d6].map Char.toLower) := by
  obtain ⟨hv1, ht1, _, _, _, _, _, hl1⟩ := hexDigitVal_facts d1 v1 h1
  obtain ⟨hv2, ht2, _, _, _, _, _, hl2⟩ := hexDigitVal_facts d2 v2 h2
  obtain ⟨hv3, ht3, _, _, _, _, _, hl3⟩ := hexDigitVal_facts d3 v3 h3
  obtain ⟨hv4, ht4, _, _, _, _, _, hl4⟩ := hexDigitVal_facts d4 v4 h4
  obtain ⟨hv5, ht5, _, _, _, _, _, hl5⟩ := hexDigitVal_facts d5 v5 h5
  obtain ⟨hv6, ht6, _, _, _, _, _, hl6⟩ := hexDigitVal_facts d6 v6 h6
  have hstrip : replaceFirstHash ['#', d1, d2, d3, d4, d5, d6] = [d1, d2, d3, d4, d5, d6] := by
    simp [replaceFirstHash]
  have hchunk : chunk2 [d1, d2, d3, d4, d5, d6] = [[d1, d2], [d3, d4], [d5, d6]] := by
    rw [chunk2_cons2 _ _ _ hl1 hl2, chunk2_cons2 _ _ _ hl3 hl4, chunk2_cons2 _ _ _ hl5 hl6]
    rfl
  have hrgb : hexToRgb ['#', d1, d2, d3, d4, d5, d6] =
      [some ((16 * v1 + v2 : Nat) : Int), some ((16 * v3 + v4 : Nat) : Int),
       some ((16 * v5 + v6 : Nat) : Int)] := by
    rw [hexToRgb, hstrip, hchunk]
    simp [parseIntHex_pair _ _ _ _ h1 h2, parseIntHex_pair _ _ _ _ h3 h4,
          parseIntHex_pair _ _ _ _ h5 h6]
  rw [roundTrip, hrgb]
  dsimp only
  simp only [rgbToHex, pad_pair v1 hv1 v2 hv2, pad_pair v3 hv3 v4 hv4, pad_pair v5 hv5 v6 hv6,
             List.map]
  rw [ht1, ht2, ht3, ht4, ht5, ht6]
  rfl

/-- Witness for C2 at the concrete valid hex string `"#1aF2b3"`. -/
theorem roundTrip_valid_witness :
    hexDigitVal '1' = some 1 ∧ hexDigitVal 'a' = some 10 ∧ hexDigitVal 'F' = some 15
    ∧ hexDigitVal '2' = some 2 ∧ hexDigitVal 'b' = some 11 ∧ hexDigitVal '3' = some 3
    ∧ roundTrip ['#', '1', 'a', 'F', '2', 'b', '3'] =
        some (['#', '1', 'a', 'F', '2', 'b', '3'].map Char.toLower) :=
  ⟨by decide, by decide, by decide, by decide, by decide, by decide,
   roundTrip_valid '1' 'a' 'F' '2' 'b' '3' 1 10 15 2 11 3
     (by decide) (by decide) (by decide) (by decide) (by decide) (by decide)⟩

/-! ### C3: what hexToRgb actually does on malformed input -/

theorem stripHexMark_of_nonhex (l : List Char) (hl : ∀ c ∈ l, hexDigitVal c = none) :
    stripHexMark l = l := by
  unfold stripHexMark
  split
  · exact absurd (hl '0' (by simp)) (by decide)
  · exact absurd (hl '0' (by simp)) (by decide)
  · rfl

theorem parseHexDigits_of_nonhex (l : List Char) (hl : ∀ c ∈ l, hexDigitVal c = none) :
    parseHexDigits l = none := by
  cases l with
  | nil => rfl
  | cons c rest => rw [parseHexDigits, hl c (by simp)]

theorem parseIntHex_of_nonhex (ch : List Char) (hall : ∀ c ∈ ch, hexDigitVal c = none) :
    parseIntHex ch = none := by
  have hsub : ∀ c ∈ ch.dropWhile isJsSpace, hexDigitVal c = none := fun c hc =>
    hall c ((List.dropWhile_sublist _).subset hc)
  rw [parseIntHex]
  split
  · rename_i r heq
    have hr : ∀ c ∈ r, hexDigitVal c = none := by
      intro c hc
      exact hsub c (by rw [heq]; simp [hc])
    rw [stripHexMark_of_nonhex r hr, parseHexDigits_of_nonhex r hr]
    rfl
  · rename_i r heq
    have hr : ∀ c ∈ r, hexDigitVal c = none := by
      intro c hc
      exact hsub c (by rw [heq]; simp [hc])
    rw [stripHexMark_of_nonhex r hr, parseHexDigits_of_nonhex r hr]
    rfl
  · rename_i heq1 heq2
    rw [stripHexMark_of_nonhex _ hsub, parseHexDigits_of_nonhex _ hsub]
    rfl

theorem chunk2_subset :
    ∀ (n : Nat) (l : List Char), l.length ≤ n → ∀ ch ∈ chunk2 l, ∀ c ∈ ch, c ∈ l := by
  intro n
  induction n with
  | zero =>
      intro l hl
      rw [List.length_eq_zero.mp (Nat.le_zero.mp hl)]
      simp [chunk2]
  | succ n ih =>
      intro l hl ch hch c hc
      match l with
      | [] => simp [chunk2] at hch
      | [a] =>
          simp only [chunk2] at hch
          by_cases ha : isLineTerm a
          · rw [if_pos ha] at hch
            simp at hch
          · rw [if_neg ha] at hch
            simp at hch
            subst hch
            simp at hc
            simp [hc]
      | a :: b :: rest2 =>
          simp only [chunk2] at hch
          have hlen2 : rest2.length ≤ n := by simp at hl; omega
          by_cases ha : isLineTerm a
          · rw [if_pos ha] at hch
            have hlen : (b :: rest2).length ≤ n := by simp at hl ⊢; omega
            have := ih (b :: rest2) hlen ch hch c hc
            simp [List.mem_cons] at this ⊢
            tauto
          · rw [if_neg ha] at hch
            by_cases hb : isLineTerm b
            · rw [if_pos hb] at hch
              rcases List.mem_cons.mp hch with h | h
              · subst h
                simp at hc
                simp [hc]
              · have := ih rest2 hlen2 ch h c hc
                simp [this]
            · rw [if_neg hb] at hch
              rcases List.mem_cons.mp hch with h | h
              · subst h
                rcases List.mem_cons.mp hc with h2 | h2
                · simp [h2]
                · simp at h2
                  simp [h2]
              · have := ih rest2 hlen2 ch h c hc
                simp [this]

/-- Claim C3 (amended): `hexToRgb` never signals an error, but malformed
input does not generally yield `(0,0,0)`: the `(0,0,0)` fallback fires only
when the content after stripping the first `#` has no regex-matchable
character (e.g. is empty), while content consisting solely of non-hex-digit
characters parses to one `NaN` (`none`) channel per group. -/
theorem hexToRgb_malformed (x : List Char) :
    (chunk2 (replaceFirstHash x) = [] → hexToRgb x = [some 0, some 0, some 0])
    ∧ (chunk2 (replaceFirstHash x) ≠ [] →
       (∀ c ∈ replaceFirstHash x, hexDigitVal c = none) →
       hexToRgb x = List.replicate ((chunk2 (replaceFirstHash x)).length) none) := by
  constructor
  · intro h
    rw [hexToRgb, h]
  · intro hne hall
    have hmem : ∀ y ∈ chunk2 (replaceFirstHash x), parseIntHex y = none := by
      intro y hy
      apply parseIntHex_of_nonhex
      intro c hcy
      exact hall c (chunk2_subset (replaceFirstHash x).length _ le_rfl y hy c hcy)
    rw [hexToRgb]
    cases hc : chunk2 (replaceFirstHash x) with
    | nil => exact absurd hc hne
    | cons ch cs =>
        rw [hc] at hmem
        dsimp only
        apply List.eq_replicate_iff.mpr
        refine ⟨by simp, ?_⟩
        intro b hb
        obtain ⟨y, hy, hby⟩ := List.mem_map.mp hb
        rw [← hby]
        exact hmem y hy

/-- Counterexample to claim C3 as stated: `"#zz"` is malformed (its content
consists of non-hex characters) yet `hexToRgb` returns `[NaN]`, and `"#abc"`
is malformed (odd length) yet `hexToRgb` returns `[171, 12]`; neither input
yields the triple `(0,0,0)`. -/
theorem hexToRgb_malformed_counterexample :
    hexDigitVal 'z' = none
    ∧ hexToRgb ['#', 'z', 'z'] = [none]
    ∧ hexToRgb ['#', 'z', 'z'] ≠ [some 0, some 0, some 0]
    ∧ hexToRgb ['#', 'a', 'b', 'c'] = [some 171, some 12]
    ∧ hexToRgb ['#', 'a', 'b', 'c'] ≠ [some 0, some 0, some 0] := by
  refine ⟨by decide, by decide, by decide, by decide, by decide⟩

/-- Witness for the amended C3 at the concrete malformed input `"zz"`. -/
theorem hexToRgb_malformed_witness :
    hexDigitVal 'z' = none ∧ replaceFirstHash ['z', 'z'] = ['z', 'z']
    ∧ hexToRgb ['z', 'z'] =
        List.replicate ((chunk2 (replaceFirstHash ['z', 'z'])).length) none :=
  ⟨by decide, by decide, (hexToRgb_malformed ['z', 'z']).2 (by decide) (by decide)⟩

end PaletteGen
